import Mathlib

/-!
Shallow embedding of `packages/gatsby-script/src/gatsby-script.tsx`.

The source is a React component `Script` plus three helpers
(`injectScript`, `resolveInlineScript`, `resolveAttributes`) and a
module-level `scriptCache` set.  We model:

 - JavaScript strings that may be `undefined` as `Option String`
   (`none` = `undefined`, `some ""` = the empty string, which is falsy);
 - the DOM body as a list of created script elements, each tagged with a
   unique node id so element identity is tracked;
 - the module-level `scriptCache : Set` as a duplicate-free list of keys;
   a key may be the JavaScript value `undefined` (an `Option String` whose
   value is `none`), since `scriptCache.add(id || src)` stores `undefined`
   when both `id` and `src` are absent;
 - the `useEffect` body (mount) and its cleanup closure (unmount) as
   explicit step functions on an engine state, with `requestIdleCallback`
   modelled as a pending-flag plus a separate fire step;
 - `performance.getEntriesByName(location.href).length` as an external
   predicate `perfHas : String → Bool` applied to a `locationHref` string.
-/

/-- The `ScriptStrategy` string enum of the source. -/
inductive ScriptStrategy where
  | preHydrate
  | postHydrate
  | idle
  | experimentalPartytown
deriving DecidableEq, Repr

/-- The string value backing each enum member. -/
def ScriptStrategy.toStr : ScriptStrategy → String
  | .preHydrate => "pre-hydrate"
  | .postHydrate => "post-hydrate"
  | .idle => "idle"
  | .experimentalPartytown => "experimental-partytown"

/-- `ScriptProps`: `id`, `src`, `strategy`, `children`, `onLoad`, `onError`
are the declared props; `dangerouslySetInnerHTML` is an object with an
optional `__html` field, so it is an `Option (Option String)`; every other
supplied key/value pair (the passthrough HTML attributes) is recorded in
`extraProps`.  `onLoad` / `onError` are modelled by their presence only. -/
structure ScriptProps where
  id : Option String := none
  src : Option String := none
  strategy : Option ScriptStrategy := none
  children : Option String := none
  dangerouslySetInnerHTML : Option (Option String) := none
  onLoad : Bool := false
  onError : Bool := false
  extraProps : List (String × String) := []
deriving DecidableEq, Repr

/-- The destructuring default `strategy = ScriptStrategy.postHydrate`. -/
def strategyOf (p : ScriptProps) : ScriptStrategy :=
  p.strategy.getD ScriptStrategy.postHydrate

/-- The `handledProps` set of the source (note: `id` is NOT in it). -/
def handledProps : List String :=
  ["src", "strategy", "dangerouslySetInnerHTML", "children", "onLoad", "onError"]

/-- `Object.entries(props)`: one entry per supplied prop, in declaration
order, followed by the extra passthrough props.  Non-string values
(`strategy`, the inner-HTML
object, the two callbacks) are rendered as placeholder strings; all four
are filtered away by `resolveAttributes` before any use. -/
def propsEntries (p : ScriptProps) : List (String × String) :=
  (match p.id with | some v => [("id", v)] | none => []) ++
  (match p.src with | some v => [("src", v)] | none => []) ++
  (match p.strategy with | some s => [("strategy", s.toStr)] | none => []) ++
  (match p.children with | some v => [("children", v)] | none => []) ++
  (match p.dangerouslySetInnerHTML with
    | some _ => [("dangerouslySetInnerHTML", "object Object")] | none => []) ++
  (if p.onLoad then [("onLoad", "function")] else []) ++
  (if p.onError then [("onError", "function")] else []) ++
  p.extraProps

/-- `resolveInlineScript`: `dangerousHTML || children` with the
destructuring defaults of the source. -/
def resolveInlineScript (p : ScriptProps) : String :=
  let children := p.children.getD ""
  let dangerousHTML := (p.dangerouslySetInnerHTML.getD none).getD ""
  if dangerousHTML = "" then children else dangerousHTML

/-- `resolveAttributes`: every entry of the props object whose key is not
in `handledProps`, verbatim. -/
def resolveAttributes (p : ScriptProps) : List (String × String) :=
  (propsEntries p).filter (fun kv => !(handledProps.contains kv.1))

/-- JavaScript record assignment `attributes[k] = v`: overwrite the value
at an existing key, otherwise append the pair. -/
def recordSet (m : List (String × String)) (k v : String) :
    List (String × String) :=
  if m.any (fun kv => kv.1 = k) then
    m.map (fun kv => if kv.1 = k then (k, v) else kv)
  else m ++ [(k, v)]

/-- First value stored at key `k` of a string record. -/
def recordGet (m : List (String × String)) (k : String) : Option String :=
  (m.find? (fun kv => kv.1 = k)).map (fun kv => kv.2)

/-- The cache key `id || src`: JavaScript `||` takes `src` whenever `id`
is `undefined` or the empty string; the result may itself be the value
`undefined` (`none`). -/
def cacheKey (p : ScriptProps) : Option String :=
  match p.id with
  | some i => if i = "" then p.src else some i
  | none => p.src

/-- A created `<script>` DOM element: the fields `injectScript` writes.
`listeners` records the event kinds attached by `addEventListener`. -/
structure ScriptElement where
  elemId : Option String := none
  datasetStrategy : Option String := none
  attributes : List (String × String) := []
  textContent : Option String := none
  elemSrc : Option String := none
  listeners : List String := []
deriving DecidableEq, Repr

/-- The mutable world the module touches: `document.body` (with a fresh
node id per created element) and the module-level `scriptCache`. -/
structure EngineState where
  nextId : Nat := 0
  body : List (Nat × ScriptElement) := []
  scriptCache : List (Option String) := []
deriving DecidableEq, Repr

/-- `Set.add`: a no-op when the key is already present. -/
def cacheAdd (c : List (Option String)) (k : Option String) :
    List (Option String) :=
  if c.contains k then c else c ++ [k]

/-- The element construction of `injectScript`, between the dedup check
and the append: `document.createElement`, the truthy-guarded `script.id`,
`script.dataset.strategy`, the `setAttribute` loop, the truthy-guarded
`textContent` and `src` writes, and the two conditional
`addEventListener` calls. -/
def mkScriptElement (p : ScriptProps) : ScriptElement :=
  let inlineScript := resolveInlineScript p
  let attributes := resolveAttributes p
  let s0 : ScriptElement := {}
  let s1 := match p.id with
    | some i => if i = "" then s0 else { s0 with elemId := some i }
    | none => s0
  let s2 := { s1 with datasetStrategy := some (strategyOf p).toStr }
  let s3 := { s2 with attributes := attributes }
  let s4 := if inlineScript = "" then s3
    else { s3 with textContent := some inlineScript }
  let s5 := match p.src with
    | some u => if u = "" then s4 else { s4 with elemSrc := some u }
    | none => s4
  let s6 := if p.onLoad then { s5 with listeners := s5.listeners ++ ["load"] }
    else s5
  if p.onError then { s6 with listeners := s6.listeners ++ ["error"] }
  else s6

/-- `injectScript(props)`: dedup check against `scriptCache`, element
construction (`mkScriptElement`), append to `document.body`, record the
key, return the element (or `null` on a dedup hit). -/
def injectScript (p : ScriptProps) (st : EngineState) :
    Option (Nat × ScriptElement) × EngineState :=
  if st.scriptCache.contains (cacheKey p) then
    (none, st)
  else
    let script := mkScriptElement p
    (some (st.nextId, script),
      { nextId := st.nextId + 1,
        body := st.body ++ [(st.nextId, script)],
        scriptCache := cacheAdd st.scriptCache (cacheKey p) })

/-- The synchronous render output of the `Script` component. -/
inductive RenderOutput where
  | declarativeInline (dataStrategy : String)
      (attributes : List (String × String)) (bodyText : String)
  | declarativeSrc (src : Option String) (dataStrategy : String)
      (attributes : List (String × String))
  | empty
deriving DecidableEq, Repr

/-- The attribute record spread onto a declarative render output. -/
def renderAttrs : RenderOutput → Option (List (String × String))
  | .declarativeInline _ a _ => some a
  | .declarativeSrc _ _ a => some a
  | .empty => none

/-- The render path of `Script`: for `pre-hydrate` and
`experimental-partytown` a declarative script element (with the
`attributes.type` override for partytown), otherwise the empty fragment. -/
def ScriptRender (p : ScriptProps) : RenderOutput :=
  let strategy := strategyOf p
  if strategy = ScriptStrategy.preHydrate ∨
      strategy = ScriptStrategy.experimentalPartytown then
    let inlineScript := resolveInlineScript p
    let attributes0 := resolveAttributes p
    let attributes :=
      if strategy = ScriptStrategy.experimentalPartytown then
        recordSet attributes0 "type" "text/partytown"
      else attributes0
    if inlineScript = "" then
      RenderOutput.declarativeSrc p.src strategy.toStr attributes
    else
      RenderOutput.declarativeInline strategy.toStr attributes inlineScript
  else RenderOutput.empty

/-- One mounted component instance: the captured `script` local of the
effect closure (as a node id once assigned) and whether an idle callback
is pending. -/
structure Instance where
  props : ScriptProps
  script : Option Nat := none
  idleScheduled : Bool := false
deriving DecidableEq, Repr

/-- The `useEffect` body at mount: `pre-hydrate` injects only when
`performance.getEntriesByName(location.href)` is empty; `post-hydrate`
injects immediately; `idle` only schedules `requestIdleCallback`; the
switch has no `experimental-partytown` case. -/
def stepMount (perfHas : String → Bool) (locationHref : String)
    (p : ScriptProps) (st : EngineState) : Instance × EngineState :=
  match strategyOf p with
  | ScriptStrategy.preHydrate =>
      if perfHas locationHref then ({ props := p }, st)
      else
        let r := injectScript p st
        ({ props := p, script := r.1.map Prod.fst }, r.2)
  | ScriptStrategy.postHydrate =>
      let r := injectScript p st
      ({ props := p, script := r.1.map Prod.fst }, r.2)
  | ScriptStrategy.idle =>
      ({ props := p, idleScheduled := true }, st)
  | ScriptStrategy.experimentalPartytown => ({ props := p }, st)

/-- The idle callback firing: runs `injectScript` against the state at
fire time and assigns the captured `script` local. -/
def stepIdleFire (inst : Instance) (st : EngineState) :
    Instance × EngineState :=
  if inst.idleScheduled then
    let r := injectScript inst.props st
    ({ inst with script := r.1.map Prod.fst, idleScheduled := false }, r.2)
  else (inst, st)

/-- One observable action of the cleanup closure. -/
inductive TeardownEvent where
  | detach (kind : String)
  | removeElement
deriving DecidableEq, Repr

/-- The sequence of actions the cleanup closure performs: optional-chained
`removeEventListener` for each supplied handler, then `script?.remove()`.
Every action short-circuits to nothing when `script` is null/undefined. -/
def teardownTrace (p : ScriptProps) (script : Option Nat) :
    List TeardownEvent :=
  (if p.onLoad then
      match script with
      | some _ => [TeardownEvent.detach "load"]
      | none => []
    else []) ++
  (if p.onError then
      match script with
      | some _ => [TeardownEvent.detach "error"]
      | none => []
    else []) ++
  (match script with
    | some _ => [TeardownEvent.removeElement]
    | none => [])

/-- `script.remove()` on the DOM: drop the node with that id from the body. -/
def removeFromBody (st : EngineState) (nid : Nat) : EngineState :=
  { st with body := st.body.filter (fun e => e.1 ≠ nid) }

/-- Unmount: the cleanup closure of the effect, applied to the instance. -/
def stepUnmount (inst : Instance) (st : EngineState) :
    List TeardownEvent × EngineState :=
  (teardownTrace inst.props inst.script,
    match inst.script with
    | some nid => removeFromBody st nid
    | none => st)

/-- Well-formed engine state: node ids in the body are distinct and below
the fresh-id counter. -/
def wfState (st : EngineState) : Prop :=
  (st.body.map Prod.fst).Nodup ∧ ∀ n ∈ st.body.map Prod.fst, n < st.nextId

instance (st : EngineState) : Decidable (wfState st) := by
  unfold wfState; infer_instance

/-- The spec side of the claim-C2 partition: which strategies are
declarative. -/
def declarativeStrategy (s : ScriptStrategy) : Bool :=
  s = ScriptStrategy.preHydrate ∨ s = ScriptStrategy.experimentalPartytown

/-- The spec side of the claim-C2 partition: which strategies are
imperative. -/
def imperativeStrategy (s : ScriptStrategy) : Bool :=
  s = ScriptStrategy.postHydrate ∨ s = ScriptStrategy.idle

/-- The inline-body rule in the words of the spec: the dangerous-HTML
inner value if present and non-empty, else the children value if present,
else the empty string. -/
def inlineBodySpec (p : ScriptProps) : String :=
  match p.dangerouslySetInnerHTML with
  | some (some d) => if d ≠ "" then d else p.children.getD ""
  | some none => p.children.getD ""
  | none => p.children.getD ""

/-- The key-derivation rule in the words of claim C10: the explicit id
when it is a non-empty string, otherwise the source URL. -/
def specKey (p : ScriptProps) : Option String :=
  match p.id with
  | some i => if i ≠ "" then some i else p.src
  | none => p.src

/-- Scenario A descriptor: source only, post-hydrate. -/
def propsA : ScriptProps :=
  { src := some "a.js", strategy := some ScriptStrategy.postHydrate }

/-- A descriptor with neither id nor source. -/
def propsKeyless : ScriptProps :=
  { strategy := some ScriptStrategy.postHydrate }

/-- A state whose cache already holds the key of `propsA`. -/
def stHasA : EngineState := { scriptCache := [some "a.js"] }

/-- A pre-hydrate descriptor with a source URL. -/
def propsPre : ScriptProps :=
  { src := some "a.js", strategy := some ScriptStrategy.preHydrate }

/-- Scenario C descriptor carrying a passthrough type attribute. -/
def propsPT : ScriptProps :=
  { src := some "b.js", strategy := some ScriptStrategy.experimentalPartytown,
    extraProps := [("type", "module")] }

/-- A partytown descriptor with an ordinary passthrough attribute. -/
def propsPT2 : ScriptProps :=
  { src := some "b.js", strategy := some ScriptStrategy.experimentalPartytown,
    extraProps := [("data-x", "1")] }

/-- Scenario D descriptor: idle strategy. -/
def propsIdleC : ScriptProps :=
  { src := some "c.js", strategy := some ScriptStrategy.idle }

/-- A post-hydrate descriptor supplying both callbacks. -/
def propsL : ScriptProps :=
  { src := some "l.js", strategy := some ScriptStrategy.postHydrate,
    onLoad := true, onError := true }

/-- A state whose cache already holds the key of `propsIdleC`. -/
def stHasC : EngineState := { scriptCache := [some "c.js"] }

/-- The state after injecting `propsL` into the empty state. -/
def stAfterL : EngineState := (injectScript propsL ({} : EngineState)).2

lemma injectScript_hit (p : ScriptProps) (st : EngineState)
    (h : st.scriptCache.contains (cacheKey p) = true) :
    injectScript p st = (none, st) := by
  have hm : cacheKey p ∈ st.scriptCache := List.elem_iff.mp h
  simp [injectScript, hm]

lemma injectScript_miss (p : ScriptProps) (st : EngineState)
    (h : st.scriptCache.contains (cacheKey p) = false) :
    injectScript p st =
      (some (st.nextId, mkScriptElement p),
        { nextId := st.nextId + 1,
          body := st.body ++ [(st.nextId, mkScriptElement p)],
          scriptCache := st.scriptCache ++ [cacheKey p] }) := by
  have hm : cacheKey p ∉ st.scriptCache := by
    intro hmem
    have h2 : st.scriptCache.contains (cacheKey p) = true :=
      List.elem_iff.mpr hmem
    rw [h] at h2
    exact absurd h2 (by decide)
  simp [injectScript, cacheAdd, hm]

lemma mkScriptElement_listeners (p : ScriptProps) :
    (mkScriptElement p).listeners =
      (if p.onLoad then ["load"] else []) ++
        (if p.onError then ["error"] else []) := by
  rcases p with ⟨id, src, strat, ch, dhtml, ol, oe, ex⟩
  unfold mkScriptElement
  rcases id with _ | i <;> rcases src with _ | u <;> cases ol <;> cases oe <;>
    simp [apply_ite ScriptElement.listeners]

lemma mkScriptElement_attributes (p : ScriptProps) :
    (mkScriptElement p).attributes = resolveAttributes p := by
  rcases p with ⟨id, src, strat, ch, dhtml, ol, oe, ex⟩
  unfold mkScriptElement
  rcases id with _ | i <;> rcases src with _ | u <;> cases ol <;> cases oe <;>
    simp [apply_ite ScriptElement.attributes]

lemma find_map_overwrite (l : List (String × String)) (k v : String) :
    (l.map (fun kv => if kv.1 = k then (k, v) else kv)).find?
        (fun kv => kv.1 = k) =
      if l.any (fun kv => kv.1 = k) then some (k, v) else none := by
  induction l with
  | nil => simp
  | cons hd tl ih =>
    by_cases hhd : hd.1 = k
    · simp [hhd]
    · have hb : (decide (hd.1 = k)) = false := decide_eq_false hhd
      simp only [List.map_cons, List.find?_cons, List.any_cons]
      rw [show decide ((if hd.1 = k then (k, v) else hd).1 = k) = false by
        rw [if_neg hhd]; exact hb]
      simp only [hb, Bool.false_or]
      exact ih

lemma recordGet_recordSet_self (m : List (String × String)) (k v : String) :
    recordGet (recordSet m k v) k = some v := by
  unfold recordSet recordGet
  by_cases h : m.any (fun kv => kv.1 = k)
  · rw [if_pos h, find_map_overwrite, if_pos h]
    rfl
  · rw [if_neg h, List.find?_append]
    have hnone : m.find? (fun kv => decide (kv.1 = k)) = none := by
      rw [List.find?_eq_none]
      intro x hx
      intro hpx
      apply h
      exact List.any_of_mem hx hpx
    rw [hnone]
    simp

lemma mem_recordSet_of_ne (m : List (String × String)) (k v k' v' : String)
    (hne : k' ≠ k) (hm : (k', v') ∈ m) : (k', v') ∈ recordSet m k v := by
  unfold recordSet
  by_cases h : m.any (fun kv => kv.1 = k)
  · rw [if_pos h]
    have heq : (fun kv : String × String =>
        if kv.1 = k then (k, v) else kv) (k', v') = (k', v') := by
      simp [hne]
    exact heq ▸ List.mem_map_of_mem _ hm
  · rw [if_neg h]
    exact List.mem_append_left _ hm

lemma ScriptRender_partytown_attrs (p : ScriptProps)
    (h : strategyOf p = ScriptStrategy.experimentalPartytown) :
    renderAttrs (ScriptRender p) =
      some (recordSet (resolveAttributes p) "type" "text/partytown") := by
  unfold ScriptRender
  rw [h]
  simp only [reduceCtorEq, or_true, if_true]
  split <;> rfl

lemma ScriptRender_preHydrate_attrs (p : ScriptProps)
    (h : strategyOf p = ScriptStrategy.preHydrate) :
    renderAttrs (ScriptRender p) = some (resolveAttributes p) := by
  unfold ScriptRender
  rw [h]
  simp only [reduceCtorEq, true_or, if_true]
  split <;> rfl

lemma ScriptRender_declarative_ne_empty (p : ScriptProps)
    (h : declarativeStrategy (strategyOf p) = true) :
    ScriptRender p ≠ RenderOutput.empty := by
  have hor : strategyOf p = ScriptStrategy.preHydrate ∨
      strategyOf p = ScriptStrategy.experimentalPartytown := by
    simpa [declarativeStrategy] using h
  unfold ScriptRender
  rcases hor with hs | hs <;> rw [hs] <;> simp <;> split <;> simp

lemma ScriptRender_imperative_empty (p : ScriptProps)
    (h : imperativeStrategy (strategyOf p) = true) :
    ScriptRender p = RenderOutput.empty := by
  have hor : strategyOf p = ScriptStrategy.postHydrate ∨
      strategyOf p = ScriptStrategy.idle := by
    simpa [imperativeStrategy] using h
  unfold ScriptRender
  rcases hor with hs | hs <;> rw [hs] <;> simp

/-- C6: the resolved inline body is the dangerous-HTML inner value when
present and non-empty, else the children value when present, else the
empty string. -/
theorem inline_body_resolution (p : ScriptProps) :
    resolveInlineScript p = inlineBodySpec p := by
  unfold resolveInlineScript inlineBodySpec
  rcases p.dangerouslySetInnerHTML with _ | dh
  · simp
  · rcases dh with _ | d
    · simp
    · by_cases hd : d = "" <;> simp [hd]

/-- C10: `injectScript` returns null precisely when the cache already has
the derived key (the truthy id, else the src) at call time; a null return
leaves the state untouched, and a non-null return is the element appended
to the body, with the key recorded. -/
theorem injectScript_null_iff (p q : ScriptProps) (st st' : EngineState)
    (hhit : st.scriptCache.contains (cacheKey p) = true)
    (hmiss : st'.scriptCache.contains (cacheKey q) = false) :
    injectScript p st = (none, st) ∧
    injectScript q st' =
      (some (st'.nextId, mkScriptElement q),
        { nextId := st'.nextId + 1,
          body := st'.body ++ [(st'.nextId, mkScriptElement q)],
          scriptCache := st'.scriptCache ++ [cacheKey q] }) ∧
    cacheKey p = specKey p := by
  refine ⟨injectScript_hit p st hhit, injectScript_miss q st' hmiss, ?_⟩
  unfold cacheKey specKey
  rcases p.id with _ | i
  · rfl
  · by_cases hi : i = "" <;> simp [hi]

theorem injectScript_null_iff_witness :
    injectScript propsA stHasA = (none, stHasA) ∧
    injectScript propsA ({} : EngineState) =
      (some (0, mkScriptElement propsA),
        { nextId := 1,
          body := [(0, mkScriptElement propsA)],
          scriptCache := [cacheKey propsA] }) ∧
    cacheKey propsA = specKey propsA :=
  injectScript_null_iff propsA propsA stHasA {} (by decide) (by decide)

/-- C1: two imperative insertions with the same identity key append
exactly one element and leave exactly one cache entry; the entry survives
element removal (unmount), so a later call with the key, even after a
remount, is a no-op. -/
theorem dedup_idempotent (p1 p2 : ScriptProps) (st : EngineState)
    (hkey : cacheKey p1 = cacheKey p2)
    (hnew : st.scriptCache.contains (cacheKey p1) = false) :
    (injectScript p1 st).2.body.length = st.body.length + 1 ∧
    (injectScript p1 st).2.scriptCache.count (cacheKey p1) = 1 ∧
    injectScript p2 (injectScript p1 st).2 = (none, (injectScript p1 st).2) ∧
    injectScript p2 (removeFromBody (injectScript p1 st).2 st.nextId) =
      (none, removeFromBody (injectScript p1 st).2 st.nextId) := by
  have hi := injectScript_miss p1 st hnew
  have hc2 : (injectScript p1 st).2.scriptCache =
      st.scriptCache ++ [cacheKey p1] := by rw [hi]
  have hcount0 : st.scriptCache.count (cacheKey p1) = 0 := by
    rw [List.count_eq_zero]
    intro hm
    have h2 : st.scriptCache.contains (cacheKey p1) = true :=
      List.elem_iff.mpr hm
    rw [hnew] at h2
    exact absurd h2 (by decide)
  have hcontains : ((injectScript p1 st).2.scriptCache).contains
      (cacheKey p2) = true := by
    rw [hc2, ← hkey]
    exact List.elem_iff.mpr (by simp)
  refine ⟨?_, ?_, ?_, ?_⟩
  · rw [hi]; simp
  · rw [hc2, List.count_append, hcount0]
    simp
  · exact injectScript_hit p2 _ hcontains
  · exact injectScript_hit p2 _ (by simpa [removeFromBody] using hcontains)

theorem dedup_idempotent_witness :
    (injectScript propsA ({} : EngineState)).2.body.length = 1 ∧
    (injectScript propsA ({} : EngineState)).2.scriptCache.count
      (cacheKey propsA) = 1 ∧
    injectScript propsA (injectScript propsA ({} : EngineState)).2 =
      (none, (injectScript propsA ({} : EngineState)).2) ∧
    injectScript propsA
        (removeFromBody (injectScript propsA ({} : EngineState)).2 0) =
      (none, removeFromBody (injectScript propsA ({} : EngineState)).2 0) :=
  dedup_idempotent propsA propsA {} rfl (by decide)

/-- C4 counterexample: with neither id nor src supplied, the second call
to `injectScript` is NOT treated as distinct: it returns null and appends
nothing, because the first call cached the undefined key. -/
theorem keyless_dedup_cex :
    (injectScript propsKeyless
        (injectScript propsKeyless ({} : EngineState)).2).1 = none ∧
    (injectScript propsKeyless
        (injectScript propsKeyless ({} : EngineState)).2).2.body.length = 1 := by
  decide

/-- C4 amended: all descriptors with neither id nor source share the
single undefined cache key; the first such call inserts and records that
key, and every later keyless call is a dedup hit that creates nothing. -/
theorem keyless_dedup_amended (p1 p2 : ScriptProps) (st : EngineState)
    (h1i : p1.id = none) (h1s : p1.src = none)
    (h2i : p2.id = none) (h2s : p2.src = none)
    (hnew : st.scriptCache.contains (none : Option String) = false) :
    cacheKey p1 = none ∧ cacheKey p2 = none ∧
    (injectScript p1 st).2.body.length = st.body.length + 1 ∧
    (injectScript p1 st).2.scriptCache.contains (none : Option String) = true ∧
    injectScript p2 (injectScript p1 st).2 = (none, (injectScript p1 st).2) := by
  have hk1 : cacheKey p1 = none := by simp [cacheKey, h1i, h1s]
  have hk2 : cacheKey p2 = none := by simp [cacheKey, h2i, h2s]
  have hn : st.scriptCache.contains (cacheKey p1) = false := by
    rw [hk1]; exact hnew
  have hi := injectScript_miss p1 st hn
  have hcontains : ((injectScript p1 st).2.scriptCache).contains
      (none : Option String) = true := by
    rw [hi]
    simp only []
    rw [hk1]
    exact List.elem_iff.mpr (by simp)
  refine ⟨hk1, hk2, ?_, hcontains, ?_⟩
  · rw [hi]; simp
  · exact injectScript_hit p2 _ (by rw [hk2]; exact hcontains)

theorem keyless_dedup_amended_witness :
    cacheKey propsKeyless = none ∧ cacheKey propsKeyless = none ∧
    (injectScript propsKeyless ({} : EngineState)).2.body.length = 1 ∧
    (injectScript propsKeyless ({} : EngineState)).2.scriptCache.contains
      (none : Option String) = true ∧
    injectScript propsKeyless (injectScript propsKeyless ({} : EngineState)).2 =
      (none, (injectScript propsKeyless ({} : EngineState)).2) :=
  keyless_dedup_amended propsKeyless propsKeyless {} rfl rfl rfl rfl (by decide)

/-- C2 counterexample: pre-hydrate is a declarative strategy, yet at mount
(on a client-side navigation, no performance entry for the page URL) it
performs document mutation: one element is appended. -/
theorem strategy_partition_cex :
    declarativeStrategy (strategyOf propsPre) = true ∧
    (stepMount (fun _ => false) "page" propsPre {}).2.body.length = 1 := by
  decide

/-- C2 amended: exactly one of the two timing classes applies to every
descriptor; experimental-partytown never mutates the document,
pre-hydrate skips mutation only when the page URL has a performance
entry, and the imperative strategies render empty output. -/
theorem strategy_partition_amended (p ppt ppre pimp : ScriptProps)
    (st : EngineState) (pf pt : String → Bool) (href : String)
    (hppt : strategyOf ppt = ScriptStrategy.experimentalPartytown)
    (hpre : strategyOf ppre = ScriptStrategy.preHydrate)
    (hpt : pt href = true)
    (himp : imperativeStrategy (strategyOf pimp) = true) :
    declarativeStrategy (strategyOf p) = !(imperativeStrategy (strategyOf p)) ∧
    stepMount pf href ppt st = ({ props := ppt }, st) ∧
    stepMount pt href ppre st = ({ props := ppre }, st) ∧
    ScriptRender pimp = RenderOutput.empty := by
  refine ⟨?_, ?_, ?_, ScriptRender_imperative_empty pimp himp⟩
  · rcases hs : strategyOf p <;>
      simp [declarativeStrategy, imperativeStrategy]
  · simp [stepMount, hppt]
  · simp [stepMount, hpre, hpt]

theorem strategy_partition_amended_witness :
    declarativeStrategy (strategyOf propsA) =
      !(imperativeStrategy (strategyOf propsA)) ∧
    stepMount (fun _ => false) "page" propsPT {} = ({ props := propsPT }, {}) ∧
    stepMount (fun _ => true) "page" propsPre {} = ({ props := propsPre }, {}) ∧
    ScriptRender propsA = RenderOutput.empty :=
  strategy_partition_amended propsA propsPT propsPre propsA {}
    (fun _ => false) (fun _ => true) "page" (by decide) (by decide) rfl
    (by decide)

/-- C3 counterexample: with the already-loaded predicate true at the
script source, the pre-hydrate declarative output is not suppressed, and
the mount-time insertion still happens because the code queries the
predicate at the page URL, not at the source. -/
theorem alreadyLoaded_cex :
    ((fun u => u == "a.js") "a.js") = true ∧
    ScriptRender propsPre ≠ RenderOutput.empty ∧
    (stepMount (fun u => u == "a.js") "page.html" propsPre {}).2.body.length
      = 1 := by
  refine ⟨rfl, by decide, by decide⟩

/-- C3 amended: the pre-hydrate declarative output is always produced;
the already-loaded predicate gates only the mount-time imperative
insertion, it is queried at the current page URL (location.href), and it
is consulted only for the pre-hydrate strategy. -/
theorem alreadyLoaded_amended (p q : ScriptProps) (st : EngineState)
    (pf pf' pt pg pg' : String → Bool) (href : String)
    (hp : strategyOf p = ScriptStrategy.preHydrate)
    (hagree : pf href = pf' href)
    (hpt : pt href = true)
    (hq : strategyOf q ≠ ScriptStrategy.preHydrate) :
    ScriptRender p ≠ RenderOutput.empty ∧
    stepMount pf href p st = stepMount pf' href p st ∧
    stepMount pt href p st = ({ props := p }, st) ∧
    stepMount pg href q st = stepMount pg' href q st := by
  refine ⟨?_, ?_, ?_, ?_⟩
  · exact ScriptRender_declarative_ne_empty p (by simp [declarativeStrategy, hp])
  · simp only [stepMount, hp, hagree]
  · simp [stepMount, hp, hpt]
  · rcases hs : strategyOf q with _ | _ | _ | _
    · exact absurd hs hq
    · simp [stepMount, hs]
    · simp [stepMount, hs]
    · simp [stepMount, hs]

theorem alreadyLoaded_amended_witness :
    ScriptRender propsPre ≠ RenderOutput.empty ∧
    stepMount (fun u => u == "a.js") "page.html" propsPre {} =
      stepMount (fun _ => false) "page.html" propsPre {} ∧
    stepMount (fun _ => true) "page.html" propsPre {} =
      ({ props := propsPre }, {}) ∧
    stepMount (fun _ => true) "page.html" propsA {} =
      stepMount (fun _ => false) "page.html" propsA {} :=
  alreadyLoaded_amended propsPre propsA {} (fun u => u == "a.js")
    (fun _ => false) (fun _ => true) (fun _ => true) (fun _ => false)
    "page.html" (by decide) (by decide) rfl (by decide)

/-- C5: for experimental-partytown the declarative output is produced
with its type attribute overridden to text/partytown independently of any
cache or already-loaded state, and the mount effect performs no document
mutation and schedules nothing. -/
theorem partytown_override (p : ScriptProps) (st : EngineState)
    (pf : String → Bool) (href : String)
    (hpt : strategyOf p = ScriptStrategy.experimentalPartytown) :
    (renderAttrs (ScriptRender p)).bind (fun a => recordGet a "type") =
      some "text/partytown" ∧
    ScriptRender p ≠ RenderOutput.empty ∧
    stepMount pf href p st = ({ props := p }, st) := by
  refine ⟨?_, ?_, ?_⟩
  · rw [ScriptRender_partytown_attrs p hpt]
    exact recordGet_recordSet_self _ _ _
  · exact ScriptRender_declarative_ne_empty p
      (by simp [declarativeStrategy, hpt])
  · simp [stepMount, hpt]

theorem partytown_override_witness :
    (renderAttrs (ScriptRender propsPT)).bind (fun a => recordGet a "type") =
      some "text/partytown" ∧
    ScriptRender propsPT ≠ RenderOutput.empty ∧
    stepMount (fun _ => true) "page" propsPT {} = ({ props := propsPT }, {}) :=
  partytown_override propsPT {} (fun _ => true) "page" (by decide)

/-- C7 counterexample: the supplied passthrough key type with value
module, not in the control set, does not appear verbatim on the produced
element under experimental-partytown: it is overridden to
text/partytown. -/
theorem passthrough_cex :
    handledProps.contains "type" = false ∧
    ("type", "module") ∈ propsEntries propsPT ∧
    renderAttrs (ScriptRender propsPT) = some [("type", "text/partytown")] ∧
    ("type", "module") ∉ (renderAttrs (ScriptRender propsPT)).getD [] := by
  decide

/-- C7 amended: every supplied key outside the control set appears
verbatim among the resolved attributes (and hence on the inserted or
declaratively produced element), control-set keys never pass through, and
the single exception is the type attribute under experimental-partytown,
which is overridden. -/
theorem passthrough_amended (p q r : ScriptProps) (st : EngineState)
    (k v k' v' : String)
    (hk : handledProps.contains k = false)
    (hk' : handledProps.contains k' = true)
    (hmiss : st.scriptCache.contains (cacheKey p) = false)
    (hq : strategyOf q = ScriptStrategy.preHydrate)
    (hr : strategyOf r = ScriptStrategy.experimentalPartytown)
    (hkt : k ≠ "type")
    (hmem : (k, v) ∈ resolveAttributes r) :
    ((k, v) ∈ propsEntries p ↔ (k, v) ∈ resolveAttributes p) ∧
    (k', v') ∉ resolveAttributes p ∧
    ((injectScript p st).1.map (fun pr => pr.2.attributes)) =
      some (resolveAttributes p) ∧
    renderAttrs (ScriptRender q) = some (resolveAttributes q) ∧
    (k, v) ∈ (renderAttrs (ScriptRender r)).getD [] := by
  have hk2 : k ∉ handledProps := by
    intro hm
    have h2 : handledProps.contains k = true := List.elem_iff.mpr hm
    rw [hk] at h2
    exact absurd h2 (by decide)
  have hk'2 : k' ∈ handledProps := List.elem_iff.mp hk'
  refine ⟨?_, ?_, ?_, ScriptRender_preHydrate_attrs q hq, ?_⟩
  · simp [resolveAttributes, List.mem_filter, hk2]
  · simp [resolveAttributes, List.mem_filter, hk'2]
  · rw [injectScript_miss p st hmiss]
    simp [mkScriptElement_attributes]
  · rw [ScriptRender_partytown_attrs r hr]
    exact mem_recordSet_of_ne _ _ _ _ _ hkt hmem

theorem passthrough_amended_witness :
    (("data-x", "1") ∈ propsEntries propsPT2 ↔
      ("data-x", "1") ∈ resolveAttributes propsPT2) ∧
    ("src", "b.js") ∉ resolveAttributes propsPT2 ∧
    ((injectScript propsPT2 ({} : EngineState)).1.map
        (fun pr => pr.2.attributes)) = some (resolveAttributes propsPT2) ∧
    renderAttrs (ScriptRender propsPre) = some (resolveAttributes propsPre) ∧
    ("data-x", "1") ∈ (renderAttrs (ScriptRender propsPT2)).getD [] :=
  passthrough_amended propsPT2 propsPre propsPT2 {} "data-x" "1" "src" "b.js"
    (by decide) (by decide) (by decide) (by decide) (by decide) (by decide)
    (by decide)

/-- C8: for a mount whose insertion created an element, teardown detaches
exactly the listeners that were attached, in order, strictly before the
single removal, and the removal deletes exactly the owned element,
restoring the body; when dedup suppressed creation teardown is a no-op. -/
theorem teardown_symmetry (p : ScriptProps) (st st' : EngineState)
    (h : Nat × ScriptElement)
    (hwf : wfState st)
    (hinj : injectScript p st = (some h, st')) :
    (stepUnmount { props := p, script := some h.1 } st').1 =
      h.2.listeners.map TeardownEvent.detach ++ [TeardownEvent.removeElement] ∧
    (stepUnmount { props := p, script := some h.1 } st').2.body = st.body ∧
    stepUnmount { props := p, script := none } st' = ([], st') := by
  have hmiss : st.scriptCache.contains (cacheKey p) = false := by
    cases hb : st.scriptCache.contains (cacheKey p)
    · rfl
    · rw [injectScript_hit p st hb] at hinj
      exact absurd (congrArg Prod.fst hinj) (by simp)
  have hi := injectScript_miss p st hmiss
  rw [hinj] at hi
  have hfst : some h = some (st.nextId, mkScriptElement p) :=
    congrArg Prod.fst hi
  have hpair : h = (st.nextId, mkScriptElement p) := Option.some.inj hfst
  have hh1 : h.1 = st.nextId := congrArg Prod.fst hpair
  have hh2 : h.2 = mkScriptElement p := congrArg Prod.snd hpair
  have hsnd : st' =
      { nextId := st.nextId + 1,
        body := st.body ++ [(st.nextId, mkScriptElement p)],
        scriptCache := st.scriptCache ++ [cacheKey p] } :=
    congrArg Prod.snd hi
  have hst' : st'.body = st.body ++ [(st.nextId, mkScriptElement p)] := by
    rw [hsnd]
  refine ⟨?_, ?_, ?_⟩
  · simp only [stepUnmount]
    rw [hh2, mkScriptElement_listeners]
    cases hl : p.onLoad <;> cases he : p.onError <;>
      simp [teardownTrace, hl, he]
  · simp only [stepUnmount]
    rw [hh1]
    simp only [removeFromBody]
    rw [hst', List.filter_append]
    have hfl : st.body.filter (fun e => decide (e.1 ≠ st.nextId)) = st.body := by
      apply List.filter_eq_self.mpr
      intro a ha
      have hlt := hwf.2 a.1 (List.mem_map_of_mem Prod.fst ha)
      simp
      omega
    rw [hfl]
    simp
  · simp [stepUnmount, teardownTrace]

theorem teardown_symmetry_witness :
    (stepUnmount { props := propsL, script := some 0 } stAfterL).1 =
      (mkScriptElement propsL).listeners.map TeardownEvent.detach ++
        [TeardownEvent.removeElement] ∧
    (stepUnmount { props := propsL, script := some 0 } stAfterL).2.body =
      ([] : List (Nat × ScriptElement)) ∧
    stepUnmount { props := propsL, script := none } stAfterL =
      ([], stAfterL) :=
  teardown_symmetry propsL {} stAfterL (0, mkScriptElement propsL)
    (by decide) (by decide)

/-- C9: for the idle strategy the mount only schedules the callback and
mutates nothing; an unmount that precedes the callback is a no-op; when
the callback later fires it checks the cache at that moment, so insertion
still proceeds on a fresh key (one element ends up in the document with
the mount gone) and is suppressed if the key is by then cached. -/
theorem idle_deferred (p : ScriptProps) (st st2 : EngineState)
    (pf : String → Bool) (href : String)
    (hstrat : strategyOf p = ScriptStrategy.idle)
    (hnew : st.scriptCache.contains (cacheKey p) = false)
    (hold : st2.scriptCache.contains (cacheKey p) = true) :
    stepMount pf href p st = ({ props := p, idleScheduled := true }, st) ∧
    stepUnmount { props := p, idleScheduled := true } st = ([], st) ∧
    (stepIdleFire { props := p, idleScheduled := true } st).2.body.length =
      st.body.length + 1 ∧
    stepIdleFire { props := p, idleScheduled := true } st2 =
      ({ props := p }, st2) := by
  refine ⟨?_, ?_, ?_, ?_⟩
  · simp [stepMount, hstrat]
  · cases hl : p.onLoad <;> cases he : p.onError <;>
      simp [stepUnmount, teardownTrace, hl, he]
  · simp [stepIdleFire, injectScript_miss p st hnew]
  · simp [stepIdleFire, injectScript_hit p st2 hold]

theorem idle_deferred_witness :
    stepMount (fun _ => true) "page" propsIdleC {} =
      ({ props := propsIdleC, idleScheduled := true }, {}) ∧
    stepUnmount { props := propsIdleC, idleScheduled := true } {} =
      ([], {}) ∧
    (stepIdleFire { props := propsIdleC, idleScheduled := true }
        ({} : EngineState)).2.body.length = 1 ∧
    stepIdleFire { props := propsIdleC, idleScheduled := true } stHasC =
      ({ props := propsIdleC }, stHasC) :=
  idle_deferred propsIdleC {} stHasC (fun _ => true) "page" (by decide)
    (by decide) (by decide)
